import Mathlib

/-
  Verification development for the Command-gateway repository.

  The repository ships a browser client (frontend/script.js) for a
  command-admission gateway; the backend described in README.md is not part
  of the repository.  The definitions below are a shallow embedding of the
  pure cores of the client functions, translated statement by statement from
  frontend/script.js; JavaScript truthiness of optional JSON fields is made
  explicit through `Option` and the `jsOr*` helpers.
-/

namespace CommandGateway

/-- JavaScript `o || d` for an optional string field: a missing field
(`undefined`/`null`, modelled `none`) and the empty string are falsy, every
other string is truthy.  Used by script.js for the `detail`, `username`,
`command_text`, `details` and `message` fallbacks. -/
def jsOrStr : Option String → String → String
  | none, d => d
  | some s, d => if s = "" then d else s

/-- JavaScript `n || d` for a number that may be `NaN` (modelled `none`):
`NaN` and `0` are falsy, every other integer is truthy.  Used by script.js
for the priority fallback 10 in addRule and the credits fallback 100 in
createUser. -/
def jsOrInt : Option Int → Int → Int
  | none, d => d
  | some n, d => if n = 0 then d else n

/-- JavaScript truthiness of an optional string: truthy iff present and
nonempty.  Used by script.js in `result.command && result.command.result`. -/
def jsTruthyStr : Option String → Bool
  | none => false
  | some s => ¬ s = ""

/-- Leading decimal digits of a character list as a number; `none` when the
list does not start with a digit (the `NaN` outcome of `parseInt`). -/
def parseDigits (l : List Char) : Option Nat :=
  match l.takeWhile Char.isDigit with
  | [] => none
  | ds => some (ds.foldl (fun acc c => acc * 10 + (c.toNat - 48)) 0)

/-- JavaScript `parseInt(s)` with the default radix on decimal input: skip
leading whitespace, read an optional sign, then the longest run of leading
decimal digits; `none` models `NaN` (no digits).  The `0x` hexadecimal
autodetection of `parseInt` is not modelled; it produces neither `NaN` nor a
different zero-ness than the decimal reading of the digits, which is all the
client branches on. -/
def parseIntJS (s : String) : Option Int :=
  match s.data.dropWhile Char.isWhitespace with
  | '-' :: rest => (parseDigits rest).map (fun n => -(n : Int))
  | '+' :: rest => (parseDigits rest).map (fun n => (n : Int))
  | l => (parseDigits l).map (fun n => (n : Int))

/-- Does `l` start with `pat`?  (Helper for the substring test below.) -/
def startsWithCL : List Char → List Char → Bool
  | _, [] => true
  | [], _ :: _ => false
  | c :: cs, p :: ps => c = p && startsWithCL cs ps

/-- Does `l` contain `pat` as a contiguous run?  (Helper for JavaScript
`String.prototype.includes`.) -/
def hasSubCL : List Char → List Char → Bool
  | [], pat => startsWithCL [] pat
  | c :: cs, pat => startsWithCL (c :: cs) pat || hasSubCL cs pat

/-- JavaScript `s.includes(pat)`. -/
def containsSub (s pat : String) : Bool :=
  hasSubCL s.data pat.data

/-- JavaScript `Array.prototype.join(sep)`. -/
def joinWith (sep : String) : List String → String
  | [] => ""
  | [x] => x
  | x :: y :: rest => x ++ sep ++ joinWith sep (y :: rest)

/-- The JSON body of a server response as script.js reads it: an optional
error `detail` (the FastAPI error payload), and the submission-result fields
used by `submitCommand`. -/
structure RespBody where
  detail : Option String := none
  status : Option String := none
  message : Option String := none
  commandResult : Option String := none
  credits_remaining : Option Int := none
  deriving DecidableEq, Repr

/-- An HTTP response as seen inside `apiRequest` after `response.json()`:
the `ok` flag, the numeric status, and the parsed body. -/
structure HttpResponse where
  ok : Bool
  status : Nat
  body : RespBody
  deriving DecidableEq, Repr

/-- The connection-failure message `apiRequest` substitutes for any error
whose message contains `Failed to fetch`. -/
def connectFailMsg : String :=
  "Cannot connect to server. Make sure the backend is running on port 8000."

/-- script.js `apiRequest` on a server response: return the parsed body when
`response.ok`, otherwise throw an Error whose message is the `detail` field
when truthy and `HTTP error` plus the numeric status otherwise; the
surrounding catch block replaces any thrown message containing `Failed to
fetch` with `connectFailMsg` and rethrows the rest. -/
def apiRequest (resp : HttpResponse) : Except String RespBody :=
  if resp.ok then Except.ok resp.body
  else
    let msg := jsOrStr resp.body.detail ("HTTP error " ++ toString resp.status)
    if containsSub msg "Failed to fetch" then Except.error connectFailMsg
    else Except.error msg

/-- What `submitCommand` hands to `displayResult`: on a successful request
the parsed body itself; on a thrown error a synthetic rejected result whose
message is the error message (and an error toast, recorded by `threw`). -/
structure SubmitOutcome where
  threw : Bool
  shown : RespBody
  deriving DecidableEq, Repr

/-- script.js `submitCommand`, reduced to its response handling: the try
branch displays the body returned by `apiRequest`; the catch branch displays
a synthetic body with status `rejected` whose message is the thrown
message. -/
def submitCommand (resp : HttpResponse) : SubmitOutcome :=
  match apiRequest resp with
  | Except.ok body => { threw := false, shown := body }
  | Except.error m =>
      { threw := true
        shown := { status := some "rejected", message := some m } }

/-- script.js `submitCommand`, credit-display update: after a successful
request, `if (result.credits_remaining !== undefined)` the displayed balance
(and `currentUser.credits`) is set to `result.credits_remaining`, otherwise
it is left unchanged; a thrown error leaves it unchanged. -/
def submitCommandCredits (credits : Int) (resp : HttpResponse) : Int :=
  match apiRequest resp with
  | Except.ok body =>
      match body.credits_remaining with
      | some c => c
      | none => credits
  | Except.error _ => credits

/-- A user record as the client sees it (`/me`, `/users`). -/
structure User where
  id : Nat
  username : String
  role : String
  credits : Int
  deriving DecidableEq, Repr

/-- A command-submission record as the client renders it. -/
structure Cmd where
  id : Nat
  command_text : String
  status : String
  credits_deducted : Bool
  created_at : String
  deriving DecidableEq, Repr

/-- script.js `loadHistory`, endpoint choice: the admin role requests
`/commands/all` and anything else requests `/history`; optional chaining
makes a missing user compare unequal to `admin`. -/
def loadHistoryEndpoint : Option User → String
  | some u => if u.role = "admin" then "/commands/all" else "/history"
  | none => "/history"

/-- script.js `loadHistory`, full request URL: the chosen endpoint plus
`?limit=100`. -/
def loadHistoryUrl (currentUser : Option User) : String :=
  loadHistoryEndpoint currentUser ++ "?limit=100"

/-- script.js `loadRecentCommands` request URL. -/
def loadRecentCommandsUrl : String := "/history?limit=5"

/-- script.js `loadAuditLogs` request URL. -/
def loadAuditLogsUrl : String := "/audit-logs?limit=100"

/-- script.js `loadHistory`, status filter: when the filter is not `all`,
keep exactly the commands whose status equals the filter value. -/
def loadHistoryDisplayed (filter : String) (commands : List Cmd) : List Cmd :=
  if filter = "all" then commands else commands.filter (fun c => c.status = filter)

/-- script.js `loadHistory`, credits column of one history row:
`${cmd.credits_deducted ? '-2' : '0'}` (line 287). -/
def loadHistoryCreditCell (credits_deducted : Bool) : String :=
  if credits_deducted then "-2" else "0"

/-- The `limit` query parameter of a URL: scan for the key and read the digits
after it (used to state what record count each client request asks for). -/
def parseLimitAt : List Char → Option Nat
  | [] => none
  | c :: cs =>
      if startsWithCL (c :: cs) ("limit=".data) then parseDigits ((c :: cs).drop 6)
      else parseLimitAt cs

/-- The `limit` query parameter of a URL string. -/
def queryLimit (url : String) : Option Nat :=
  parseLimitAt url.data

/-- An audit-log record as the client renders and exports it. -/
structure AuditLog where
  created_at : String
  username : Option String
  action : String
  command_text : Option String
  details : Option String
  deriving DecidableEq, Repr

/-- script.js `exportAuditLogs`, quoting of one cell: double every embedded
double quote, then wrap the cell in double quotes. -/
def csvEscapeQuotes : List Char → List Char
  | [] => []
  | c :: cs => if c = '"' then '"' :: '"' :: csvEscapeQuotes cs else c :: csvEscapeQuotes cs

/-- A CSV cell: the quoted, quote-doubled form of a string. -/
def csvCell (cell : String) : String :=
  "\"" ++ String.mk (csvEscapeQuotes cell.data) ++ "\""

/-- script.js `exportAuditLogs`, header cells. -/
def exportHeaders : List String :=
  ["Timestamp", "User", "Action", "Command", "Details"]

/-- script.js `exportAuditLogs`, the five cells of one record: the
timestamp, the username with fallback `System`, the action, and the command
text and details with empty fallback. -/
def auditRow (log : AuditLog) : List String :=
  [log.created_at, jsOrStr log.username "System", log.action,
    jsOrStr log.command_text "", jsOrStr log.details ""]

/-- script.js `exportAuditLogs`, the CSV text:
`[headers.join(','), ...rows.map(row => row.map(quote).join(','))].join('\n')`
(the header row is joined unquoted, the data cells are quoted). -/
def exportAuditLogsCsv (logs : List AuditLog) : String :=
  joinWith "\n"
    (joinWith "," exportHeaders ::
      (logs.map auditRow).map (fun row => joinWith "," (row.map csvCell)))

/-- The actor cell as claim C6 words it strictly: the username of the
record, or `System` only when the username field is absent. -/
def actorCellClaimed (username : Option String) : String :=
  match username with
  | none => "System"
  | some u => u

/-- The actor cell as the code computes it (amended reading): the username
of the record, or `System` when the username is absent or empty. -/
def actorCellAmended (username : Option String) : String :=
  match username with
  | none => "System"
  | some u => if u = "" then "System" else u

/-- Cell quoting written from the words of the claim (wrap in double quotes,
double every embedded double quote), independently of `csvCell`. -/
def quoteCellSpec (cell : String) : String :=
  "\"" ++ cell.data.foldr
    (fun c acc => if c = '"' then "\"\"" ++ acc else String.mk [c] ++ acc) "" ++ "\""

/-- Data rows of the export, one `\n`-preceded row per record in order, with
a given actor function; each cell quoted per the claim. -/
def specRowsWith (actor : Option String → String) : List AuditLog → String
  | [] => ""
  | l :: ls =>
      "\n" ++ quoteCellSpec l.created_at
        ++ "," ++ quoteCellSpec (actor l.username)
        ++ "," ++ quoteCellSpec l.action
        ++ "," ++ quoteCellSpec (l.command_text.getD "")
        ++ "," ++ quoteCellSpec (l.details.getD "")
        ++ specRowsWith actor ls

/-- The export table as claim C6 states it: header row, then one row per
record, actor = username or `System` only when absent. -/
def exportAuditLogsClaimed (logs : List AuditLog) : String :=
  "Timestamp,User,Action,Command,Details" ++ specRowsWith actorCellClaimed logs

/-- The export table as amended: header row, then one row per record, actor =
username or `System` when the username is absent or empty. -/
def exportAuditLogsAmended (logs : List AuditLog) : String :=
  "Timestamp,User,Action,Command,Details" ++ specRowsWith actorCellAmended logs

/-- The verdict action of a rule (`AUTO_ACCEPT` allows, `AUTO_REJECT`
denies). -/
inductive RuleAction where
  | AUTO_ACCEPT
  | AUTO_REJECT
  deriving DecidableEq, Repr

/-- Modelled from the spec: one admission rule of the RuleSet — unique id,
priority (lower evaluates first, ties broken by id ascending), a compiled
pattern (represented by its matching function on the raw command text), and
an action.  The backend rule store (backend/rules.py) is not part of the
repository. -/
structure Rule where
  id : Nat
  priority : Int
  matchesText : String → Bool
  action : RuleAction

/-- Evaluation order of two rules: priority ascending, id ascending on
ties. -/
def ruleLe (a b : Rule) : Bool :=
  decide (a.priority < b.priority) ||
    (decide (a.priority = b.priority) && decide (a.id ≤ b.id))

/-- Insertion into a rule list sorted by `ruleLe`. -/
def insertRule (r : Rule) : List Rule → List Rule
  | [] => [r]
  | x :: xs => if ruleLe r x then r :: x :: xs else x :: insertRule r xs

/-- Modelled from the spec: sort the active rules by (priority ascending,
id ascending). -/
def sortRules : List Rule → List Rule
  | [] => []
  | r :: rs => insertRule r (sortRules rs)

/-- The outcome of evaluating a command against the rule set. -/
structure Verdict where
  action : RuleAction
  matchedRuleId : Option Nat
  deriving DecidableEq, Repr

/-- Modelled from the spec: `RuleEngine.Evaluate(commandText)` — scan the
rules in sorted order; the first rule whose pattern matches the command text
determines the verdict; if no rule matches, the default verdict is
`AUTO_REJECT` with no matched rule.  The backend engine (backend/rules.py)
is not part of the repository. -/
def Evaluate (rules : List Rule) (commandText : String) : Verdict :=
  match (sortRules rules).find? (fun r => r.matchesText commandText) with
  | some r => { action := r.action, matchedRuleId := some r.id }
  | none => { action := RuleAction.AUTO_REJECT, matchedRuleId := none }

/-- Per-character HTML text-node escaping (the serialization the browser
applies when `div.textContent = text` is read back via `div.innerHTML`):
`&` becomes `&amp;`, `<` becomes `&lt;`, `>` becomes `&gt;`, every other
character is unchanged. -/
def escCharL (c : Char) : List Char :=
  if c = '&' then "&amp;".data
  else if c = '<' then "&lt;".data
  else if c = '>' then "&gt;".data
  else [c]

/-- HTML text-node escaping of a character list. -/
def escList : List Char → List Char
  | [] => []
  | c :: cs => escCharL c ++ escList cs

/-- script.js `escapeHtml`: a falsy argument (null, undefined or the empty
string) returns the empty string, otherwise the DOM text-node
round-trip `div.textContent = text; div.innerHTML`, modelled by the HTML
serialization of a text node (`escList`). -/
def escapeHtml : Option String → String
  | none => ""
  | some s => if s = "" then "" else String.mk (escList s.data)

/-- Parsing an HTML-escaped string back as text content: decode the three
entities the serialization produces, pass everything else through. -/
def unescapeChars : List Char → List Char
  | [] => []
  | '&' :: 'a' :: 'm' :: 'p' :: ';' :: rest => '&' :: unescapeChars rest
  | '&' :: 'l' :: 't' :: ';' :: rest => '<' :: unescapeChars rest
  | '&' :: 'g' :: 't' :: ';' :: rest => '>' :: unescapeChars rest
  | c :: rest => c :: unescapeChars rest

/-- Parsing an HTML-escaped string back as text content. -/
def unescapeHtml (s : String) : String :=
  String.mk (unescapeChars s.data)

/-- Occurrences of a character in a string. -/
def countChar (c : Char) (s : String) : Nat :=
  s.data.count c

/-- script.js `displayResult`: the HTML written into the result box, built
from the submitted command and the status, message and mocked result of the
result object.  The command, the message (with empty fallback) and the
mocked result are
passed through `escapeHtml`; the status is interpolated raw (it is one of
the two server enum values); the `<pre>` block is present only when
`result.command && result.command.result` is truthy. -/
def displayResultHtml (command : String) (status : String)
    (message : Option String) (cmdResult : Option String) : String :=
  let outputHtml :=
    if jsTruthyStr cmdResult then
      "<pre style=\"margin-top: 0.5rem; white-space: pre-wrap; color: var(--text-secondary);\">"
        ++ escapeHtml cmdResult ++ "</pre>"
    else ""
  let isSuccess := status = "executed"
  "\n        <div class=\"result-command\">\n            <span class=\"prompt\">$</span> "
    ++ escapeHtml (some command)
    ++ "\n        </div>\n        <div class=\"result-output "
    ++ (if isSuccess then "success" else "error")
    ++ "\">\n            <div class=\"result-status "
    ++ status ++ "\">[" ++ status.toUpper
    ++ "]</div>\n            <div>"
    ++ escapeHtml (some (jsOrStr message ""))
    ++ "</div>\n            " ++ outputHtml
    ++ "\n        </div>\n    "

/-- script.js `addRule`, priority field: parseInt of the priority input with
falsy fallback 10 — an unparsable input (`NaN`) and a parsed `0` both fall
back to `10`. -/
def addRulePriority (input : String) : Int :=
  jsOrInt (parseIntJS input) 10

/-- script.js `createUser`, credits field: parseInt of the initial-credits
input with falsy fallback 100 — an unparsable input (`NaN`) and a parsed `0`
both fall back to `100`. -/
def createUserCredits (input : String) : Int :=
  jsOrInt (parseIntJS input) 100

/-- A concrete rule set (the README seed rule blocking `mkfs`), used to
instantiate the fail-closed theorem. -/
def demoRules : List Rule :=
  [ { id := 2, priority := 10, matchesText := fun s => containsSub s "mkfs",
      action := RuleAction.AUTO_REJECT } ]

/-- A concrete admin user, used to instantiate the endpoint-choice
theorem. -/
def demoUserAdmin : User :=
  { id := 1, username := "root", role := "admin", credits := 5 }

/-- A concrete executed submission, used to instantiate the filter
theorem. -/
def demoCmd : Cmd :=
  { id := 1, command_text := "ls -la", status := "executed",
    credits_deducted := true, created_at := "t" }

/-- A concrete audit record whose username is present but empty, the input
separating the actor fallback of the code from the claimed one. -/
def demoEmptyUserLog : AuditLog :=
  { created_at := "t1", username := some "", action := "LOGIN_FAILED",
    command_text := none, details := none }

section Lemmas

/-- A request whose response is not `ok` always throws. -/
theorem apiRequest_error_of_not_ok (resp : HttpResponse) (h : resp.ok = false) :
    ∃ m, apiRequest resp = Except.error m := by
  unfold apiRequest
  rw [h]
  simp only [Bool.false_eq_true, if_false]
  split
  · exact ⟨_, rfl⟩
  · exact ⟨_, rfl⟩

/-- The head of a pattern that prefixes a list is an element of the list. -/
theorem mem_of_startsWithCL (p : Char) (ps l : List Char)
    (h : startsWithCL l (p :: ps) = true) : p ∈ l := by
  cases l with
  | nil => simp [startsWithCL] at h
  | cons c cs =>
      simp only [startsWithCL, Bool.and_eq_true, decide_eq_true_eq] at h
      rw [h.1]
      exact List.mem_cons_self p cs

/-- The head of a pattern that occurs inside a list is an element of the
list. -/
theorem head_mem_of_hasSub (p : Char) (ps l : List Char)
    (h : hasSubCL l (p :: ps) = true) : p ∈ l := by
  induction l with
  | nil => simp [hasSubCL, startsWithCL] at h
  | cons c cs ih =>
      simp only [hasSubCL, Bool.or_eq_true] at h
      rcases h with h | h
      · exact mem_of_startsWithCL p ps (c :: cs) h
      · exact List.mem_cons_of_mem _ (ih h)

/-- A digit character is never the capital letter `F`. -/
theorem digitChar_ne_F (m : Nat) : ¬ Nat.digitChar m = 'F' := by
  by_cases hm : m ≤ 15
  · interval_cases m <;> decide
  · unfold Nat.digitChar
    have h0 : ¬ m = 0 := by omega
    have h1 : ¬ m = 1 := by omega
    have h2 : ¬ m = 2 := by omega
    have h3 : ¬ m = 3 := by omega
    have h4 : ¬ m = 4 := by omega
    have h5 : ¬ m = 5 := by omega
    have h6 : ¬ m = 6 := by omega
    have h7 : ¬ m = 7 := by omega
    have h8 : ¬ m = 8 := by omega
    have h9 : ¬ m = 9 := by omega
    have h10 : ¬ m = 10 := by omega
    have h11 : ¬ m = 11 := by omega
    have h12 : ¬ m = 12 := by omega
    have h13 : ¬ m = 13 := by omega
    have h14 : ¬ m = 14 := by omega
    have h15 : ¬ m = 15 := by omega
    simp only [if_neg h0, if_neg h1, if_neg h2, if_neg h3, if_neg h4, if_neg h5,
      if_neg h6, if_neg h7, if_neg h8, if_neg h9, if_neg h10, if_neg h11,
      if_neg h12, if_neg h13, if_neg h14, if_neg h15]
    decide

/-- The decimal rendering of a natural number never contains `F`. -/
theorem toDigitsCore_ne_F :
    ∀ (fuel n : Nat) (acc : List Char), (∀ c ∈ acc, ¬ c = 'F') →
      ∀ c ∈ Nat.toDigitsCore 10 fuel n acc, ¬ c = 'F' := by
  intro fuel
  induction fuel with
  | zero =>
      intro n acc hacc c hc
      simp only [Nat.toDigitsCore] at hc
      exact hacc c hc
  | succ fuel ih =>
      intro n acc hacc c hc
      simp only [Nat.toDigitsCore] at hc
      split at hc
      · rcases List.mem_cons.mp hc with h | h
        · rw [h]; exact digitChar_ne_F _
        · exact hacc c h
      · refine ih (n / 10) (Nat.digitChar (n % 10) :: acc) ?_ c hc
        intro x hx
        rcases List.mem_cons.mp hx with h | h
        · rw [h]; exact digitChar_ne_F _
        · exact hacc x h

/-- Rendering a natural number with `toString` never produces `F`. -/
theorem toString_nat_ne_F (n : Nat) : ∀ c ∈ (toString n).data, ¬ c = 'F' := by
  have hdata : (toString n).data = Nat.toDigitsCore 10 (n + 1) n [] := rfl
  rw [hdata]
  refine toDigitsCore_ne_F (n + 1) n [] ?_
  intro c hc
  simp at hc

/-- The fallback message `HTTP error <status>` never contains the substring
`Failed to fetch`, so it is never rewritten by the connection-failure
catch. -/
theorem httpError_no_fetch (n : Nat) :
    containsSub ("HTTP error " ++ toString n) "Failed to fetch" = false := by
  by_contra hne
  rw [Bool.not_eq_false] at hne
  unfold containsSub at hne
  have hpat : "Failed to fetch".data = 'F' :: "ailed to fetch".data := by decide
  rw [hpat] at hne
  have hmem : 'F' ∈ ("HTTP error " ++ toString n).data :=
    head_mem_of_hasSub 'F' "ailed to fetch".data _ hne
  rw [String.data_append] at hmem
  rcases List.mem_append.mp hmem with h | h
  · revert h; decide
  · exact toString_nat_ne_F n 'F' h rfl

/-- Membership is preserved by sorted insertion of a rule. -/
theorem mem_insertRule {a r : Rule} {l : List Rule} :
    a ∈ insertRule r l ↔ a = r ∨ a ∈ l := by
  induction l with
  | nil => simp [insertRule]
  | cons x xs ih =>
      simp only [insertRule]
      split
      · simp [List.mem_cons]
      · simp only [List.mem_cons, ih]
        tauto

/-- Sorting the rules preserves membership. -/
theorem mem_sortRules {a : Rule} {l : List Rule} :
    a ∈ sortRules l ↔ a ∈ l := by
  induction l with
  | nil => simp [sortRules]
  | cons r rs ih => simp [sortRules, mem_insertRule, ih]

end Lemmas

/-- C2: for every command text that matches no rule in the rule set,
Evaluate returns the verdict AUTO_REJECT (with no matched rule), so a
command with no applicable rule is never permitted. -/
theorem evaluate_no_match_auto_reject (rules : List Rule) (text : String)
    (h : ∀ r ∈ rules, r.matchesText text = false) :
    Evaluate rules text
      = { action := RuleAction.AUTO_REJECT, matchedRuleId := none } := by
  unfold Evaluate
  have hnone : (sortRules rules).find? (fun r => r.matchesText text) = none := by
    rw [List.find?_eq_none]
    intro x hx
    simp [h x (mem_sortRules.mp hx)]
  rw [hnone]

/-- Witness for C2: the command `date` matches no rule of the demo rule set
and is rejected with no matched rule. -/
theorem evaluate_no_match_auto_reject_witness :
    Evaluate demoRules "date"
      = { action := RuleAction.AUTO_REJECT, matchedRuleId := none } :=
  evaluate_no_match_auto_reject demoRules "date" (by
    intro r hr
    rw [List.mem_singleton.mp hr]
    decide)

/-- Counterexample to C3 as stated: a non-OK response whose body carries a
present `detail` field (the string `Failed to fetch`) is not thrown with the
detail as message — the catch block rewrites it to the connection-failure
message. -/
theorem apiRequest_detail_counterexample :
    apiRequest
        { ok := false, status := 500, body := { detail := some "Failed to fetch" } }
      = Except.error connectFailMsg
    ∧ ¬ connectFailMsg = "Failed to fetch" := by
  constructor
  · rfl
  · decide

/-- C3 (amended): an OK response returns the parsed body — bodies with
status `rejected` included, which submitCommand shows as a normal result
rather than an error — and a non-OK response throws: the message is the
`detail` field of the body when that is present, nonempty and free of `Failed to
fetch`; `HTTP error <status>` when `detail` is absent or empty; and the
fixed connection-failure message when `detail` contains `Failed to
fetch`. -/
theorem apiRequest_error_message_rules (resp : HttpResponse) :
    (resp.ok = true → apiRequest resp = Except.ok resp.body
        ∧ submitCommand resp = { threw := false, shown := resp.body })
    ∧ (resp.ok = false → ∀ d : String, resp.body.detail = some d → ¬ d = "" →
        containsSub d "Failed to fetch" = false → apiRequest resp = Except.error d)
    ∧ (resp.ok = false → (resp.body.detail = none ∨ resp.body.detail = some "") →
        apiRequest resp = Except.error ("HTTP error " ++ toString resp.status))
    ∧ (resp.ok = false → ∀ d : String, resp.body.detail = some d →
        containsSub d "Failed to fetch" = true →
        apiRequest resp = Except.error connectFailMsg) := by
  refine ⟨?_, ?_, ?_, ?_⟩
  · intro h
    constructor
    · simp [apiRequest, h]
    · simp [submitCommand, apiRequest, h]
  · intro h d hd hne hf
    simp [apiRequest, h, hd, jsOrStr, hne, hf]
  · intro h hd
    rcases hd with hd | hd
    · simp [apiRequest, h, hd, jsOrStr, httpError_no_fetch]
    · simp [apiRequest, h, hd, jsOrStr, httpError_no_fetch]
  · intro h d hd hf
    by_cases hde : d = ""
    · rw [hde] at hf
      have hfalse : containsSub "" "Failed to fetch" = false := by decide
      rw [hfalse] at hf
      cases hf
    · simp [apiRequest, h, hd, jsOrStr, hde, hf]

/-- Witness for C3 (amended): a 404 with detail `Not found` throws exactly
`Not found`, and an OK body with status `rejected` is displayed as a normal
result. -/
theorem apiRequest_error_message_rules_witness :
    apiRequest { ok := false, status := 404, body := { detail := some "Not found" } }
      = Except.error "Not found"
    ∧ submitCommand { ok := true, status := 200, body := { status := some "rejected" } }
      = { threw := false, shown := { status := some "rejected" } } :=
  ⟨(apiRequest_error_message_rules
        { ok := false, status := 404, body := { detail := some "Not found" } }).2.1
      rfl "Not found" rfl (by decide) (by decide),
    ((apiRequest_error_message_rules
        { ok := true, status := 200, body := { status := some "rejected" } }).1 rfl).2⟩

/-- C1: the credits column of a history row shows `-2` for a credited
submission — not the 1-credit deduction documented by the README credit
system — and `0` for an uncredited one. -/
theorem loadHistory_credit_cell_shows_minus_two :
    loadHistoryCreditCell true = "-2"
    ∧ ¬ loadHistoryCreditCell true = "-1"
    ∧ loadHistoryCreditCell false = "0" := by
  decide

/-- C4: the recent-commands request asks for at most 5 records, and the
full-history request (for any current user) and the audit-log request each
ask for at most 100. -/
theorem client_request_limits :
    queryLimit loadRecentCommandsUrl = some 5
    ∧ (∀ currentUser : Option User, queryLimit (loadHistoryUrl currentUser) = some 100)
    ∧ queryLimit loadAuditLogsUrl = some 100 := by
  refine ⟨by decide, ?_, by decide⟩
  intro u
  cases u with
  | none => decide
  | some u =>
      by_cases h : u.role = "admin"
      · simp only [loadHistoryUrl, loadHistoryEndpoint, if_pos h]; decide
      · simp only [loadHistoryUrl, loadHistoryEndpoint, if_neg h]; decide

/-- C5: loadHistory requests `/commands/all` exactly when the role of the
current user is admin and `/history` otherwise (also when no user is set), and
a filter other than `all` displays exactly the submissions whose status
equals the filter value. -/
theorem loadHistory_endpoint_and_filter :
    (∀ u : User, u.role = "admin" → loadHistoryEndpoint (some u) = "/commands/all")
    ∧ (∀ u : User, ¬ u.role = "admin" → loadHistoryEndpoint (some u) = "/history")
    ∧ loadHistoryEndpoint none = "/history"
    ∧ (∀ (filter : String) (commands : List Cmd), ¬ filter = "all" →
        ∀ c : Cmd, c ∈ loadHistoryDisplayed filter commands
          ↔ c ∈ commands ∧ c.status = filter) := by
  refine ⟨?_, ?_, rfl, ?_⟩
  · intro u h
    simp [loadHistoryEndpoint, h]
  · intro u h
    simp [loadHistoryEndpoint, h]
  · intro filter commands hf c
    simp [loadHistoryDisplayed, if_neg hf, List.mem_filter]

/-- Witness for C5: an admin user is routed to `/commands/all`, and with the
filter `executed` a concrete executed submission is displayed. -/
theorem loadHistory_endpoint_and_filter_witness :
    loadHistoryEndpoint (some demoUserAdmin) = "/commands/all"
    ∧ (demoCmd ∈ loadHistoryDisplayed "executed" [demoCmd]
        ↔ demoCmd ∈ [demoCmd] ∧ demoCmd.status = "executed") :=
  ⟨loadHistory_endpoint_and_filter.1 demoUserAdmin rfl,
    loadHistory_endpoint_and_filter.2.2.2 "executed" [demoCmd] (by decide) demoCmd⟩

/-- Counterexample to C6 as stated: for an audit record whose username is
present but empty, the exported actor cell is `"System"`, not the quoted
username — the falsy fallback of the code also fires on the empty string, which
the strict claimed table does not. -/
theorem exportAuditLogs_claim_counterexample :
    ¬ exportAuditLogsCsv [demoEmptyUserLog] = exportAuditLogsClaimed [demoEmptyUserLog]
    ∧ exportAuditLogsCsv [demoEmptyUserLog]
      = "Timestamp,User,Action,Command,Details\n\"t1\",\"System\",\"LOGIN_FAILED\",\"\",\"\"" := by
  constructor
  · decide
  · rfl

/-- Tail of a JavaScript-style join: each remaining element preceded by the
separator. -/
def joinTail (sep : String) : List String → String
  | [] => ""
  | y :: rest => sep ++ y ++ joinTail sep rest

/-- A nonempty join is its head followed by separator-prefixed tail
elements. -/
theorem joinWith_cons (sep x : String) (l : List String) :
    joinWith sep (x :: l) = x ++ joinTail sep l := by
  induction l generalizing x with
  | nil => simp [joinWith, joinTail, String.append_empty]
  | cons y rest ih =>
      simp only [joinWith, joinTail]
      rw [ih]
      simp [String.append_assoc]

/-- The two cell-quoting constructions agree. -/
theorem csvEscape_eq_foldr (l : List Char) :
    String.mk (csvEscapeQuotes l)
      = l.foldr (fun c acc => if c = '"' then "\"\"" ++ acc else String.mk [c] ++ acc) "" := by
  induction l with
  | nil => rfl
  | cons c cs ih =>
      simp only [csvEscapeQuotes, List.foldr]
      split
      · rw [← ih]; rfl
      · rw [← ih]; rfl

/-- The CSV cell of the code equals the claim-worded quoted cell. -/
theorem csvCell_eq_quoteCellSpec (s : String) : csvCell s = quoteCellSpec s := by
  unfold csvCell quoteCellSpec
  rw [csvEscape_eq_foldr]

/-- The falsy fallback to the empty string is the `Option.getD` default. -/
theorem jsOrStr_getD (o : Option String) : jsOrStr o "" = o.getD "" := by
  cases o with
  | none => rfl
  | some s =>
      simp only [jsOrStr, Option.getD_some]
      by_cases h : s = ""
      · rw [if_pos h, h]
      · rw [if_neg h]

/-- The actor fallback of the code equals the amended actor cell. -/
theorem jsOrStr_system (o : Option String) :
    jsOrStr o "System" = actorCellAmended o := by
  cases o <;> rfl

/-- One joined data row of the export equals the claim-worded row with the
amended actor cell. -/
theorem auditRow_join (l : AuditLog) :
    joinWith "," ((auditRow l).map csvCell)
      = quoteCellSpec l.created_at ++ "," ++ quoteCellSpec (actorCellAmended l.username)
        ++ "," ++ quoteCellSpec l.action ++ "," ++ quoteCellSpec (l.command_text.getD "")
        ++ "," ++ quoteCellSpec (l.details.getD "") := by
  simp only [auditRow, List.map_cons, List.map_nil, joinWith]
  rw [csvCell_eq_quoteCellSpec, csvCell_eq_quoteCellSpec, csvCell_eq_quoteCellSpec,
    csvCell_eq_quoteCellSpec, csvCell_eq_quoteCellSpec, jsOrStr_system, jsOrStr_getD,
    jsOrStr_getD]
  simp [String.append_assoc]

/-- C6 (amended): the audit-log export is the comma-delimited table whose
first row is the header `Timestamp,User,Action,Command,Details` followed by
one row per fetched record in order, each cell wrapped in double quotes with
embedded double quotes doubled, where the actor cell is the username of the
record or `System` when the username is absent or empty. -/
theorem exportAuditLogs_table_shape (logs : List AuditLog) :
    exportAuditLogsCsv logs = exportAuditLogsAmended logs := by
  unfold exportAuditLogsCsv exportAuditLogsAmended
  rw [joinWith_cons]
  have hhead : joinWith "," exportHeaders = "Timestamp,User,Action,Command,Details" := rfl
  rw [hhead]
  congr 1
  induction logs with
  | nil => rfl
  | cons l ls ih =>
      simp only [List.map_cons, joinTail, specRowsWith]
      rw [ih, auditRow_join]
      simp [String.append_assoc]

/-- C7: after a command submission the displayed balance is set to the
`credits_remaining` field of the response exactly when it is present, and is
left unchanged when the field is absent or the request threw; the new value
never depends on the previous balance when the field is present. -/
theorem submitCommand_credits_update :
    (∀ (credits : Int) (resp : HttpResponse) (c : Int), resp.ok = true →
        resp.body.credits_remaining = some c → submitCommandCredits credits resp = c)
    ∧ (∀ (credits : Int) (resp : HttpResponse), resp.ok = true →
        resp.body.credits_remaining = none → submitCommandCredits credits resp = credits)
    ∧ (∀ (credits : Int) (resp : HttpResponse), resp.ok = false →
        submitCommandCredits credits resp = credits) := by
  refine ⟨?_, ?_, ?_⟩
  · intro credits resp c hok hc
    simp [submitCommandCredits, apiRequest, hok, hc]
  · intro credits resp hok hc
    simp [submitCommandCredits, apiRequest, hok, hc]
  · intro credits resp hok
    obtain ⟨m, hm⟩ := apiRequest_error_of_not_ok resp hok
    simp [submitCommandCredits, hm]

/-- Witness for C7: a response carrying `credits_remaining := 4` replaces a
displayed balance of 7 with 4. -/
theorem submitCommand_credits_update_witness :
    submitCommandCredits 7
      { ok := true, status := 200, body := { credits_remaining := some 4 } } = 4 :=
  submitCommand_credits_update.1 7
    { ok := true, status := 200, body := { credits_remaining := some 4 } } 4 rfl rfl

/-- C8: a rule-priority input that fails to parse (`NaN`) or parses to 0 is
submitted with priority 10, and no input can produce a rule priority of 0. -/
theorem addRule_priority_default (input : String) :
    (parseIntJS input = none → addRulePriority input = 10)
    ∧ (parseIntJS input = some 0 → addRulePriority input = 10)
    ∧ ¬ addRulePriority input = 0 := by
  refine ⟨?_, ?_, ?_⟩
  · intro h
    simp [addRulePriority, jsOrInt, h]
  · intro h
    simp [addRulePriority, jsOrInt, h]
  · cases h : parseIntJS input with
    | none =>
        have h10 : addRulePriority input = 10 := by simp [addRulePriority, jsOrInt, h]
        rw [h10]; decide
    | some n =>
        by_cases hn : n = 0
        · have h10 : addRulePriority input = 10 := by
            simp [addRulePriority, jsOrInt, h, hn]
          rw [h10]; decide
        · have hv : addRulePriority input = n := by
            simp [addRulePriority, jsOrInt, h, hn]
          rw [hv]; exact hn

/-- Witness for C8: the inputs `abc` (unparsable) and `0` both submit
priority 10. -/
theorem addRule_priority_default_witness :
    addRulePriority "abc" = 10 ∧ addRulePriority "0" = 10 :=
  ⟨(addRule_priority_default "abc").1 rfl, (addRule_priority_default "0").2.1 rfl⟩

/-- C9: an initial-credits input that fails to parse (`NaN`) or parses to 0
creates the user with 100 credits, and no input can assign an initial
balance of 0. -/
theorem createUser_credits_default (input : String) :
    (parseIntJS input = none → createUserCredits input = 100)
    ∧ (parseIntJS input = some 0 → createUserCredits input = 100)
    ∧ ¬ createUserCredits input = 0 := by
  refine ⟨?_, ?_, ?_⟩
  · intro h
    simp [createUserCredits, jsOrInt, h]
  · intro h
    simp [createUserCredits, jsOrInt, h]
  · cases h : parseIntJS input with
    | none =>
        have h100 : createUserCredits input = 100 := by
          simp [createUserCredits, jsOrInt, h]
        rw [h100]; decide
    | some n =>
        by_cases hn : n = 0
        · have h100 : createUserCredits input = 100 := by
            simp [createUserCredits, jsOrInt, h, hn]
          rw [h100]; decide
        · have hv : createUserCredits input = n := by
            simp [createUserCredits, jsOrInt, h, hn]
          rw [hv]; exact hn

/-- Witness for C9: the inputs `xyz` (unparsable) and `0` both create the
user with 100 credits. -/
theorem createUser_credits_default_witness :
    createUserCredits "xyz" = 100 ∧ createUserCredits "0" = 100 :=
  ⟨(createUser_credits_default "xyz").1 rfl, (createUser_credits_default "0").2.1 rfl⟩

/-- An escaped character contributes no raw opening angle bracket. -/
theorem escCharL_count_lt (c : Char) : (escCharL c).count '<' = 0 := by
  by_cases h1 : c = '&'
  · unfold escCharL; rw [if_pos h1]; decide
  · by_cases h2 : c = '<'
    · unfold escCharL; rw [if_neg h1, if_pos h2]; decide
    · by_cases h3 : c = '>'
      · unfold escCharL; rw [if_neg h1, if_neg h2, if_pos h3]; decide
      · unfold escCharL; rw [if_neg h1, if_neg h2, if_neg h3]
        simp [List.count_singleton, h2]

/-- An escaped character contributes no raw closing angle bracket. -/
theorem escCharL_count_gt (c : Char) : (escCharL c).count '>' = 0 := by
  by_cases h1 : c = '&'
  · unfold escCharL; rw [if_pos h1]; decide
  · by_cases h2 : c = '<'
    · unfold escCharL; rw [if_neg h1, if_pos h2]; decide
    · by_cases h3 : c = '>'
      · unfold escCharL; rw [if_neg h1, if_neg h2, if_pos h3]; decide
      · unfold escCharL; rw [if_neg h1, if_neg h2, if_neg h3]
        simp [List.count_singleton, h3]

/-- An escaped character list contains no raw opening angle bracket. -/
theorem escList_count_lt (l : List Char) : (escList l).count '<' = 0 := by
  induction l with
  | nil => rfl
  | cons c cs ih => simp [escList, List.count_append, escCharL_count_lt, ih]

/-- An escaped character list contains no raw closing angle bracket. -/
theorem escList_count_gt (l : List Char) : (escList l).count '>' = 0 := by
  induction l with
  | nil => rfl
  | cons c cs ih => simp [escList, List.count_append, escCharL_count_gt, ih]

/-- escapeHtml output contains no raw opening angle bracket. -/
theorem escapeHtml_count_lt (o : Option String) :
    ((escapeHtml o).data).count '<' = 0 := by
  cases o with
  | none => rfl
  | some s =>
      by_cases h : s = ""
      · simp only [escapeHtml, if_pos h]; rfl
      · simp only [escapeHtml, if_neg h]
        exact escList_count_lt s.data

/-- escapeHtml output contains no raw closing angle bracket. -/
theorem escapeHtml_count_gt (o : Option String) :
    ((escapeHtml o).data).count '>' = 0 := by
  cases o with
  | none => rfl
  | some s =>
      by_cases h : s = ""
      · simp only [escapeHtml, if_pos h]; rfl
      · simp only [escapeHtml, if_neg h]
        exact escList_count_gt s.data

/-- Text-content parsing passes an entity-free head character through. -/
theorem unescape_cons_ne (c : Char) (l : List Char) (h : ¬ c = '&') :
    unescapeChars (c :: l) = c :: unescapeChars l := by
  rw [unescapeChars.eq_def]
  split <;> simp_all

/-- Parsing the escaped form of a character list as text content restores
the list. -/
theorem unescape_escList (l : List Char) : unescapeChars (escList l) = l := by
  induction l with
  | nil => rfl
  | cons c cs ih =>
      by_cases h1 : c = '&'
      · subst h1
        have hs : escList ('&' :: cs) = '&' :: 'a' :: 'm' :: 'p' :: ';' :: escList cs := rfl
        rw [hs]
        simp only [unescapeChars]
        rw [ih]
      · by_cases h2 : c = '<'
        · subst h2
          have hs : escList ('<' :: cs) = '&' :: 'l' :: 't' :: ';' :: escList cs := rfl
          rw [hs]
          simp only [unescapeChars]
          rw [ih]
        · by_cases h3 : c = '>'
          · subst h3
            have hs : escList ('>' :: cs) = '&' :: 'g' :: 't' :: ';' :: escList cs := rfl
            rw [hs]
            simp only [unescapeChars]
            rw [ih]
          · have hs : escList (c :: cs) = c :: escList cs := by
              show escCharL c ++ escList cs = c :: escList cs
              unfold escCharL
              rw [if_neg h1, if_neg h2, if_neg h3]
              rfl
            rw [hs, unescape_cons_ne c _ h1, ih]

/-- Parsing the escaped form of a string as text content restores the
string. -/
theorem unescape_escape (s : String) : unescapeHtml (escapeHtml (some s)) = s := by
  by_cases h : s = ""
  · rw [h]; rfl
  · have he : escapeHtml (some s) = String.mk (escList s.data) := by
      simp only [escapeHtml, if_neg h]
    rw [he]
    show String.mk (unescapeChars (escList s.data)) = s
    rw [unescape_escList]

/-- Character counts distribute over string concatenation. -/
theorem countChar_append (c : Char) (s t : String) :
    countChar c (s ++ t) = countChar c s + countChar c t := by
  simp [countChar, String.data_append, List.count_append]

/-- escapeHtml output contributes no raw opening bracket (string form). -/
theorem countChar_escapeHtml_lt (o : Option String) :
    countChar '<' (escapeHtml o) = 0 :=
  escapeHtml_count_lt o

/-- The empty string contains no characters at all. -/
theorem countChar_empty (c : Char) : countChar c "" = 0 := rfl

/-- Truthiness of a missing optional string. -/
theorem jsTruthyStr_none : jsTruthyStr none = false := rfl

/-- The user-controlled strings of a displayed result contribute no raw
opening angle bracket: for a fixed status, the bracket count of the rendered
HTML does not depend on the command, message or mocked result, beyond the
two brackets of the `pre` block that wraps a truthy mocked result. -/
theorem displayResult_count_lt (command status : String)
    (message cmdResult : Option String) :
    countChar '<' (displayResultHtml command status message cmdResult)
      = countChar '<' (displayResultHtml "" status none none)
        + (if jsTruthyStr cmdResult then 2 else 0) := by
  cases hr : jsTruthyStr cmdResult with
  | false =>
      simp [displayResultHtml, hr, jsTruthyStr_none, countChar_append,
        countChar_escapeHtml_lt, countChar_empty]
  | true =>
      simp only [displayResultHtml, hr, jsTruthyStr_none, Bool.false_eq_true,
        if_false, if_true, countChar_append, countChar_escapeHtml_lt,
        countChar_empty]
      rw [show countChar '<'
            "<pre style=\"margin-top: 0.5rem; white-space: pre-wrap; color: var(--text-secondary);\">"
          = 1 from by decide,
        show countChar '<' "</pre>" = 1 from by decide]
      omega

/-- C10: escapeHtml is total — empty output on null/undefined/empty input —
its output contains no raw angle bracket and parses back as text content to
the original string, and displayResult routes the command, message and
mocked result through escapeHtml, so they contribute no markup to the
rendered HTML. -/
theorem escapeHtml_total_safe_roundtrip :
    escapeHtml none = "" ∧ escapeHtml (some "") = ""
    ∧ (∀ s : String, countChar '<' (escapeHtml (some s)) = 0
        ∧ countChar '>' (escapeHtml (some s)) = 0)
    ∧ (∀ s : String, unescapeHtml (escapeHtml (some s)) = s)
    ∧ (∀ (command status : String) (message cmdResult : Option String),
        countChar '<' (displayResultHtml command status message cmdResult)
          = countChar '<' (displayResultHtml "" status none none)
            + (if jsTruthyStr cmdResult then 2 else 0)) := by
  refine ⟨rfl, rfl, ?_, unescape_escape, displayResult_count_lt⟩
  intro s
  exact ⟨escapeHtml_count_lt (some s), escapeHtml_count_gt (some s)⟩

end CommandGateway
